import Mathlib

/-!
Shallow embedding of the `clientx` HTTP client core (package `clientx`):
the backoff retry controller, the adaptive bucket rate limiter, the
request-building pipeline and the retry/circuit-breaker attempt loop,
together with theorems settling the specification claims.

Modelling conventions:
* `time.Duration` and the `int64` attempt counters are modelled as `Int`
  (nanosecond counts; the counter moves in steps of one from zero and is
  bounded by `maxAttempts`, so 64-bit wraparound is unreachable in the
  modelled executions).
* `time.Time` is modelled as `Int`, the zero `time.Time{}` being `0`.
* Go closures (`RetryFunc`, `RetryCond`, scheduled limiter events,
  request options) are modelled as Lean functions.
* Randomness (`rand.Float64`) is modelled by an explicit jitter
  parameter constrained to the interval the generator draws from.
-/

namespace Clientx

/-! ### Backoff retry controller (`backoff`, `Retrier`) -/

/-- Model of `const stopBackoff time.Duration = -1`. -/
def stopBackoff : Int := -1

/-- The `backoff` struct: min/max wait, max attempts, the attempt counter
and the retry delay function `f : RetryFunc`. -/
structure backoff where
  minWaitTime : Int
  maxWaitTime : Int
  maxAttempts : Int
  attempts : Int
  f : Int → Int → Int → Int

/-- Model of `backoff.Next`: if the current attempt count has reached `maxAttempts`,
return `stopBackoff` leaving the state unchanged; otherwise add one to the
counter and return `f(attempts, minWaitTime, maxWaitTime)` evaluated at the
freshly incremented counter. Returns the duration and the updated state. -/
def backoff.Next (b : backoff) : Int × backoff :=
  if b.attempts ≥ b.maxAttempts then
    (stopBackoff, b)
  else
    let b' : backoff := { b with attempts := b.attempts + 1 }
    (b'.f b'.attempts b'.minWaitTime b'.maxWaitTime, b')

/-- Model of `backoff.Reset`: atomically swap the counter to zero, returning the
prior value. -/
def backoff.Reset (b : backoff) : Int × backoff :=
  (b.attempts, { b with attempts := 0 })

/-- Model of `backoff.Attempt`: read the counter. -/
def backoff.Attempt (b : backoff) : Int :=
  b.attempts

/-- Iterate `k` successive calls to `Next`, keeping only the state. -/
def backoff.iterNext : Nat → backoff → backoff
  | 0, b => b
  | k + 1, b => backoff.iterNext k (b.Next).2

/-- The counter after `k` calls to `Next`: it climbs by one per call while
below `maxAttempts` and is left unchanged by calls that return the stop
sentinel. -/
theorem backoff.iterNext_attempts (k : Nat) (b : backoff) :
    (backoff.iterNext k b).attempts
      = min (b.attempts + k) (max b.maxAttempts b.attempts) := by
  induction k generalizing b with
  | zero => simp [backoff.iterNext]
  | succ k ih =>
      rw [backoff.iterNext, ih]
      rw [backoff.Next]
      by_cases h : b.attempts ≥ b.maxAttempts
      · simp only [if_pos h]
        omega
      · simp only [if_neg h]
        omega

/-- Other fields of the backoff state are never changed by `Next`. -/
theorem backoff.iterNext_fields (k : Nat) (b : backoff) :
    (backoff.iterNext k b).minWaitTime = b.minWaitTime ∧
    (backoff.iterNext k b).maxWaitTime = b.maxWaitTime ∧
    (backoff.iterNext k b).maxAttempts = b.maxAttempts ∧
    (backoff.iterNext k b).f = b.f := by
  induction k generalizing b with
  | zero => exact ⟨rfl, rfl, rfl, rfl⟩
  | succ k ih =>
      rw [backoff.iterNext, backoff.Next]
      by_cases hc : b.attempts ≥ b.maxAttempts
      · rw [if_pos hc]
        exact ih b
      · rw [if_neg hc]
        exact ih _

/-- C3: the claim states that every `Next` call increments the counter.
On the stop path the code returns `stopBackoff` without touching the
counter: starting from a controller whose counter already equals
`maxAttempts = 0`, a `Next` call leaves the counter at `0`, not `1`. -/
theorem C3_counterexample :
    ((backoff.Next
        { minWaitTime := 0, maxWaitTime := 0, maxAttempts := 0,
          attempts := 0, f := fun _ _ _ => 0 }).2.attempts = 0) ∧
    ¬ ((backoff.Next
        { minWaitTime := 0, maxWaitTime := 0, maxAttempts := 0,
          attempts := 0, f := fun _ _ _ => 0 }).2.attempts = 1) := by
  constructor
  · rfl
  · intro h
    simp [backoff.Next] at h

/-- C3 (amended): when the counter has already reached `maxAttempts`,
`Next` returns the stop sentinel with the counter (and everything else)
unchanged and without invoking the delay function — the result is the same
for every delay function `g`; otherwise it increments the counter by one
and returns the delay function applied to the new attempt number, the
minimum wait and the maximum wait. -/
theorem C3_next_spec (b : backoff) (g : Int → Int → Int → Int) :
    if b.attempts ≥ b.maxAttempts then
      b.Next = (stopBackoff, b) ∧
      backoff.Next { b with f := g } = (stopBackoff, { b with f := g })
    else
      b.Next = (b.f (b.attempts + 1) b.minWaitTime b.maxWaitTime,
        { b with attempts := b.attempts + 1 }) := by
  by_cases h : b.attempts ≥ b.maxAttempts
  · simp only [if_pos h]
    constructor
    · simp [backoff.Next, if_pos h]
    · simp [backoff.Next, if_pos h]
  · simp only [if_neg h]
    simp [backoff.Next, if_neg h]

/-- C4: the claim states `Reset` returns exactly the number `k` of `Next`
calls made since the previous reset. With `maxAttempts = 1`, two `Next`
calls leave the counter at `1` (the second call stops without counting),
so `Reset` returns `1`, not `2`. -/
theorem C4_counterexample :
    ((backoff.iterNext 2
        { minWaitTime := 0, maxWaitTime := 0, maxAttempts := 1,
          attempts := 0, f := fun _ _ _ => 0 }).Reset.1 = 1) ∧
    ¬ ((backoff.iterNext 2
        { minWaitTime := 0, maxWaitTime := 0, maxAttempts := 1,
          attempts := 0, f := fun _ _ _ => 0 }).Reset.1 = 2) := by
  have h := backoff.iterNext_attempts 2
      { minWaitTime := 0, maxWaitTime := 0, maxAttempts := 1,
        attempts := 0, f := fun _ _ _ => 0 }
  constructor
  · simpa [backoff.Reset] using h
  · intro hc
    rw [backoff.Reset] at hc
    simp at h
    omega

/-- C4 (amended): after `k` calls to `Next` on a freshly constructed or
freshly reset controller (counter `0`), `Reset` returns
`min k (max maxAttempts 0)` — the number of `Next` calls that did not
return the stop sentinel — and sets the counter back to zero. -/
theorem C4_reset_count (k : Nat) (b : backoff) (h0 : b.attempts = 0) :
    (backoff.iterNext k b).Reset.1 = min (k : Int) (max b.maxAttempts 0) ∧
    (backoff.iterNext k b).Reset.2.attempts = 0 := by
  have h := backoff.iterNext_attempts k b
  rw [h0] at h
  constructor
  · rw [backoff.Reset, h]
    omega
  · rfl

/-- Witness for C4: three `Next` calls against `maxAttempts = 5` are all
counted, and `Reset` returns `3` and zeroes the counter. -/
theorem C4_reset_count_witness :
    (backoff.iterNext 3
        { minWaitTime := 0, maxWaitTime := 0, maxAttempts := 5,
          attempts := 0, f := fun _ _ _ => 0 }).Reset.1
      = min ((3 : Nat) : Int) (max 5 0) ∧
    (backoff.iterNext 3
        { minWaitTime := 0, maxWaitTime := 0, maxAttempts := 5,
          attempts := 0, f := fun _ _ _ => 0 }).Reset.2.attempts = 0 :=
  C4_reset_count 3
    { minWaitTime := 0, maxWaitTime := 0, maxAttempts := 5,
      attempts := 0, f := fun _ _ _ => 0 } rfl

/-! ### Adaptive bucket rate limiter (`adaptiveBucketLimiter`) -/

/-- The mutable core of the wrapped `rate.Limiter`: the current limit and
burst, the two values the scheduled events mutate via `SetLimit` /
`SetBurst`. -/
structure RateState where
  limit : Int
  burst : Int

/-- The `adaptiveBucketLimiter` struct: the wrapped limiter core `r`, the
single pending trigger time `nextResetAt` (`0` is the zero `time.Time`)
and the accumulated event callbacks `nextResetEvents`. -/
structure adaptiveBucketLimiter where
  r : RateState
  nextResetAt : Int
  nextResetEvents : List (RateState → RateState)

/-- Model of `adaptiveBucketLimiter.tryReset`:
`l.nextResetAt.Equal(now) || l.nextResetAt.After(now)`. -/
def adaptiveBucketLimiter.tryReset (l : adaptiveBucketLimiter) (now : Int) : Bool :=
  l.nextResetAt == now || l.nextResetAt > now

/-- The `for i := range l.nextResetEvents` loop: apply each event callback
to the limiter core, in the order they were appended. -/
def applyEvents : List (RateState → RateState) → RateState → RateState
  | [], r => r
  | f :: fs, r => applyEvents fs (f r)

/-- The mutation performed by `adaptiveBucketLimiter.Wait` under the mutex,
before delegating to `rate.Limiter.Wait`: if `tryReset` holds, run every
accumulated event in order, zero the trigger time and empty the event
list; otherwise leave the state untouched. -/
def adaptiveBucketLimiter.waitResetStep (l : adaptiveBucketLimiter) (now : Int) :
    adaptiveBucketLimiter :=
  if l.tryReset now then
    { r := applyEvents l.nextResetEvents l.r,
      nextResetAt := 0,
      nextResetEvents := [] }
  else
    l

/-- Model of `validateResetAt`: a zero time is replaced by the current time. -/
def validateResetAt (t : Int) (now : Int) : Int :=
  if t = 0 then now else t

/-- Model of `adaptiveBucketLimiter.insertEvent`: overwrite the single trigger slot
with the supplied time and append the callback to the pending list. -/
def adaptiveBucketLimiter.insertEvent (l : adaptiveBucketLimiter) (t : Int)
    (f : RateState → RateState) : adaptiveBucketLimiter :=
  { l with nextResetAt := t, nextResetEvents := l.nextResetEvents ++ [f] }

/-- Model of `adaptiveBucketLimiter.SetBurstAt`: schedule `r.SetBurst(burst)` at
`validateResetAt at`. -/
def adaptiveBucketLimiter.SetBurstAt (l : adaptiveBucketLimiter) (t : Int)
    (burst : Int) (now : Int) : adaptiveBucketLimiter :=
  l.insertEvent (validateResetAt t now) (fun r => { r with burst := burst })

/-- Model of `adaptiveBucketLimiter.SetLimitAt`: schedule `r.SetLimit(limit)` at
`validateResetAt at`. -/
def adaptiveBucketLimiter.SetLimitAt (l : adaptiveBucketLimiter) (t : Int)
    (limit : Int) (now : Int) : adaptiveBucketLimiter :=
  l.insertEvent (validateResetAt t now) (fun r => { r with limit := limit })

/-- C2: the code's `tryReset` compares backwards — it returns true when the
pending trigger time is **at or after** `now`, so a limiter holding a
trigger at time `10` with one pending burst-change callback fires the
callback (and clears the trigger and list) on a `Wait` at `now = 3`,
before the trigger time, and leaves everything pending untouched on a
`Wait` at `now = 200`, after the trigger time — the exact opposite of the
claimed (and intended) reached-or-passed behaviour. -/
theorem C2_tryReset_reversed :
    ((adaptiveBucketLimiter.waitResetStep
        { r := { limit := 1, burst := 1 }, nextResetAt := 10,
          nextResetEvents := [fun r => { r with burst := 5 }] } 3).r.burst = 5) ∧
    ((adaptiveBucketLimiter.waitResetStep
        { r := { limit := 1, burst := 1 }, nextResetAt := 10,
          nextResetEvents := [fun r => { r with burst := 5 }] } 3).nextResetEvents = []) ∧
    ((adaptiveBucketLimiter.waitResetStep
        { r := { limit := 1, burst := 1 }, nextResetAt := 10,
          nextResetEvents := [fun r => { r with burst := 5 }] } 200)
      = { r := { limit := 1, burst := 1 }, nextResetAt := 10,
          nextResetEvents := [fun r => { r with burst := 5 }] }) :=
  ⟨rfl, rfl, rfl⟩

/-! ### Default retry delay function (`ExponentalBackoff`) -/

/-- The unclamped delay: `delay = min * 2^attemptNum + jitter`, where the
jitter `rnd.Float64() * float64(min) * float64(attemptNum)` is modelled as
an explicit parameter. The `float64` and `time.Duration` arithmetic is
modelled exactly over `ℚ`. -/
def exponentalBackoffUnclamped (attemptNum : Nat) (min jitter : ℚ) : ℚ :=
  2 ^ attemptNum * min + jitter

/-- Model of `ExponentalBackoff` (source spelling): the unclamped delay, capped at
`max` when it exceeds `max`. -/
def ExponentalBackoff (attemptNum : Nat) (min max jitter : ℚ) : ℚ :=
  let delay := exponentalBackoffUnclamped attemptNum min jitter
  if delay > max then max else delay

/-- C8: for non-negative `min` and any jitter draws `j n` within the
generator's range `[0, min * n]`, the unclamped delay is non-decreasing in
the attempt number (from attempt 1 on), and the returned clamped delay
never exceeds `max`. -/
theorem C8_backoff_monotone_capped (min max : ℚ) (j : ℕ → ℚ)
    (hmin : 0 ≤ min)
    (hj : ∀ n, 0 ≤ j n ∧ j n ≤ min * n) :
    (∀ n : ℕ, 1 ≤ n →
      exponentalBackoffUnclamped n min (j n)
        ≤ exponentalBackoffUnclamped (n + 1) min (j (n + 1))) ∧
    (∀ n : ℕ, ExponentalBackoff n min max (j n) ≤ max) := by
  constructor
  · intro n _
    have hjn := hj n
    have hjn1 := hj (n + 1)
    have hpow : (n : ℚ) ≤ 2 ^ n := by
      exact_mod_cast (Nat.lt_two_pow n).le
    have hmul : min * (n : ℚ) ≤ min * 2 ^ n :=
      mul_le_mul_of_nonneg_left hpow hmin
    simp only [exponentalBackoffUnclamped, pow_succ]
    nlinarith [hjn.1, hjn.2, hjn1.1, hjn1.2]
  · intro n
    rw [ExponentalBackoff]
    by_cases h : exponentalBackoffUnclamped n min (j n) > max
    · simp [h]
    · simp only [if_neg h]
      exact le_of_not_lt h

/-- Witness for C8 at `min = 1`, `max = 100`, zero jitter, attempt 1. -/
theorem C8_backoff_witness :
    (exponentalBackoffUnclamped 1 1 ((fun _ : ℕ => (0 : ℚ)) 1)
      ≤ exponentalBackoffUnclamped 2 1 ((fun _ : ℕ => (0 : ℚ)) 2)) ∧
    (ExponentalBackoff 1 1 100 ((fun _ : ℕ => (0 : ℚ)) 1) ≤ 100) := by
  have h := C8_backoff_monotone_capped 1 100 (fun _ => 0) (by norm_num)
    (fun n => by norm_num)
  exact ⟨h.1 1 le_rfl, h.2 1⟩

/-! ### Errors, responses and the `performRequest` attempt loop -/

/-- Go error values reaching `performRequest`: the two gobreaker
sentinels, a generic transport error, and a wrapped error as produced by
`errors.Wrap` (message plus inner cause). -/
inductive GoErr where
  | errOpenState : GoErr
  | errTooManyRequests : GoErr
  | transport : Nat → GoErr
  | wrapped : String → GoErr → GoErr
deriving DecidableEq, BEq

/-- Model of `errors.Is(e, target)`: the error itself or any error in its unwrap
chain equals the target. -/
def errorsIs : GoErr → GoErr → Bool
  | .wrapped m inner, target =>
      (GoErr.wrapped m inner == target) || errorsIs inner target
  | e, target => e == target

/-- An `*http.Response`, reduced to its status code. -/
structure HttpResponse where
  statusCode : Nat
deriving DecidableEq, BEq

/-- The `(resp, err)` pair of one transport execution. -/
abbrev AttemptPair := Option HttpResponse × Option GoErr

/-- The tail of the inner `do` closure of `performRequest`, applied to the
pair returned by `httpClient.Do` (direct or through
`breaker.Breaker.Execute`): a non-nil error matching `gobreaker.ErrOpenState`
or `gobreaker.ErrTooManyRequests` is wrapped with the message
`"circuit-breaker has worked"` and returned with a nil response; any other
non-nil error is returned as-is with a nil response; on a nil error the
response passes through (the debug dump has no semantic effect). -/
def classifyAttempt (raw : AttemptPair) : AttemptPair :=
  match raw.2 with
  | some e =>
      if errorsIs e .errOpenState || errorsIs e .errTooManyRequests then
        (none, some (.wrapped "circuit-breaker has worked" e))
      else
        (none, some e)
  | none => (raw.1, none)

/-- The caller-side test distinguishing a breaker-open failure from a
generic transport failure: `errors.Is` against either gobreaker
sentinel. -/
def isBreakerOpenErr : Option GoErr → Bool
  | some e => errorsIs e .errOpenState || errorsIs e .errTooManyRequests
  | none => false

/-- A `RetryCond` (condition over the `(resp, err)` pair). -/
abbrev RetryCond := Option HttpResponse → Option GoErr → Bool

/-- The condition scan of `performRequest`: conditions are evaluated in
declaration order and the first match short-circuits. -/
def matchesCond (conds : List RetryCond) (pr : AttemptPair) : Bool :=
  conds.any fun cond => cond pr.1 pr.2

/-- The environment one `performRequest` call runs in: the configured
retry conditions and, for each `k`, the `(resp, err)` pair that the `k`-th
transport execution (0-based, before breaker-error classification)
produces. -/
structure RetryEnv where
  conds : List RetryCond
  rawResult : Nat → AttemptPair

/-- The `for` loop of `performRequest` when a retry controller is
configured, started at transport execution index `k` with backoff state
`b`. Each iteration runs the `do` closure (classification included); if
some retry condition matches the resulting pair, `Next` is consulted: on
`stopBackoff` the controller is `Reset` and the current pair is returned,
otherwise the loop sleeps and repeats; if no condition matches, the
current pair is returned. The result carries the pair returned to the
caller, the total number of transport executions performed, and the final
backoff state. -/
def performRequestLoop (env : RetryEnv) (b : backoff) (k : Nat) :
    AttemptPair × Nat × backoff :=
  let pr := classifyAttempt (env.rawResult k)
  if matchesCond env.conds pr then
    if (b.Next).1 = stopBackoff then
      (pr, k + 1, ((b.Next).2.Reset).2)
    else
      performRequestLoop env (b.Next).2 (k + 1)
  else
    (pr, k + 1, b)
termination_by (b.maxAttempts - b.attempts).toNat
decreasing_by
  simp only [backoff.Next] at *
  by_cases hc : b.attempts ≥ b.maxAttempts
  · simp [if_pos hc, stopBackoff] at *
  · simp only [if_neg hc] at *
    omega

/-- When every attempt's pair matches some retry condition and the delay
function never yields the stop sentinel, the loop started with `m` more
countable attempts (`attempts + m = maxAttempts`) performs exactly `m + 1`
further transport executions, returns the final execution's classified
pair unchanged, and leaves the controller reset to zero. -/
theorem performRequestLoop_allMatch (m : Nat) (env : RetryEnv) (b : backoff) (k : Nat)
    (hm : b.attempts + (m : Int) = b.maxAttempts)
    (hmatch : ∀ i, matchesCond env.conds (classifyAttempt (env.rawResult i)) = true)
    (hf : ∀ n, b.f n b.minWaitTime b.maxWaitTime ≠ stopBackoff) :
    performRequestLoop env b k
      = (classifyAttempt (env.rawResult (k + m)), k + m + 1, { b with attempts := 0 }) := by
  induction m generalizing b k with
  | zero =>
      rw [performRequestLoop]
      have hstop : (b.Next).1 = stopBackoff := by
        rw [backoff.Next, if_pos (by omega)]
      rw [if_pos (hmatch k), if_pos hstop]
      have hb : (b.Next).2 = b := by
        rw [backoff.Next, if_pos (by omega)]
      rw [hb, backoff.Reset]
      simp
  | succ m ih =>
      rw [performRequestLoop]
      have hlt : ¬ (b.attempts ≥ b.maxAttempts) := by omega
      have hnext : b.Next
          = (b.f (b.attempts + 1) b.minWaitTime b.maxWaitTime,
             { b with attempts := b.attempts + 1 }) := by
        rw [backoff.Next, if_neg hlt]
      have hns : ¬ ((b.Next).1 = stopBackoff) := by
        rw [hnext]
        exact hf (b.attempts + 1)
      rw [if_pos (hmatch k), if_neg hns, hnext]
      have := ih { b with attempts := b.attempts + 1 } (k + 1)
        (by simp; omega) hf
      rw [this]
      have harith : k + 1 + m = k + (m + 1) := by omega
      rw [harith]

/-- C1: the claim states that with maximum attempts `N` and every attempt
matching a retry condition, exactly `N` transport attempts occur. With
`maxAttempts = 1`, an always-true condition and a transport that always
answers 429, the loop performs `2` transport executions, not `1` (the
first execution happens before the controller is consulted; each of the
`N` non-stop `Next` calls funds one further execution). -/
theorem C1_counterexample :
    ((performRequestLoop
        { conds := [fun _ _ => true],
          rawResult := fun _ => (some { statusCode := 429 }, none) }
        { minWaitTime := 0, maxWaitTime := 0, maxAttempts := 1,
          attempts := 0, f := fun _ _ _ => 0 } 0).2.1 = 2) ∧
    ¬ ((performRequestLoop
        { conds := [fun _ _ => true],
          rawResult := fun _ => (some { statusCode := 429 }, none) }
        { minWaitTime := 0, maxWaitTime := 0, maxAttempts := 1,
          attempts := 0, f := fun _ _ _ => 0 } 0).2.1 = 1) := by
  have h := performRequestLoop_allMatch 1
      { conds := [fun _ _ => true],
        rawResult := fun _ => (some { statusCode := 429 }, none) }
      { minWaitTime := 0, maxWaitTime := 0, maxAttempts := 1,
        attempts := 0, f := fun _ _ _ => 0 } 0
      (by norm_num)
      (fun i => by simp [matchesCond])
      (fun n => by simp [stopBackoff])
  rw [h]
  simp

/-- C1 (amended): for every configured maximum attempts `N ≥ 1`, an
attempt loop started on a fresh (zero) counter in which every attempt's
`(response, error)` pair matches some configured retry condition — and
whose delay function never returns the stop sentinel itself — performs
exactly `N + 1` transport attempts (the initial attempt plus `N` funded
retries) and returns the classified `(response, error)` pair of the final
attempt unchanged, with the controller reset to zero. -/
theorem C1_exhaustion_count (env : RetryEnv) (b : backoff) (N : Nat)
    (_hN : 1 ≤ N) (hmax : b.maxAttempts = (N : Int)) (h0 : b.attempts = 0)
    (hmatch : ∀ i, matchesCond env.conds (classifyAttempt (env.rawResult i)) = true)
    (hf : ∀ n, b.f n b.minWaitTime b.maxWaitTime ≠ stopBackoff) :
    performRequestLoop env b 0
      = (classifyAttempt (env.rawResult N), N + 1, { b with attempts := 0 }) := by
  have h := performRequestLoop_allMatch N env b 0 (by omega) hmatch hf
  simpa using h

/-- Witness for C1 (amended): `N = 2`, an always-matching condition and a
constant 429 transport give exactly `3` transport executions, returning
the final 429 pair. -/
theorem C1_exhaustion_count_witness :
    performRequestLoop
        { conds := [fun _ _ => true],
          rawResult := fun _ => (some { statusCode := 429 }, none) }
        { minWaitTime := 0, maxWaitTime := 0, maxAttempts := 2,
          attempts := 0, f := fun _ _ _ => 0 } 0
      = (classifyAttempt
            ((fun _ => (some { statusCode := 429 }, none) : Nat → AttemptPair) 2),
         2 + 1,
         { minWaitTime := 0, maxWaitTime := 0, maxAttempts := 2,
           attempts := 0, f := fun _ _ _ => 0 }) :=
  C1_exhaustion_count
    { conds := [fun _ _ => true],
      rawResult := fun _ => (some { statusCode := 429 }, none) }
    { minWaitTime := 0, maxWaitTime := 0, maxAttempts := 2,
      attempts := 0, f := fun _ _ _ => 0 } 2
    (by norm_num) (by norm_num) rfl
    (fun i => by simp [matchesCond])
    (fun n => by simp [stopBackoff])

/-- C6: when a transport execution's error is (or wraps) one of the
gobreaker sentinels `ErrOpenState` / `ErrTooManyRequests`, the pipeline
returns a pair whose error is recognised by `errors.Is` against those
sentinels — while a generic transport error is not, so callers can
distinguish the two — and the loop performs no further attempt on it
unless some configured retry condition matches the pair. -/
theorem C6_breaker_open_classified (env : RetryEnv) (b : backoff) (k : Nat) (e : GoErr)
    (he : (env.rawResult k).2 = some e)
    (hbr : errorsIs e .errOpenState = true ∨ errorsIs e .errTooManyRequests = true) :
    isBreakerOpenErr (classifyAttempt (env.rawResult k)).2 = true ∧
    (∀ code : Nat, isBreakerOpenErr (some (.transport code)) = false) ∧
    (matchesCond env.conds (classifyAttempt (env.rawResult k)) = false →
      performRequestLoop env b k = (classifyAttempt (env.rawResult k), k + 1, b)) := by
  have hor : (errorsIs e .errOpenState || errorsIs e .errTooManyRequests) = true := by
    rcases hbr with h | h <;> simp [h]
  have hcls : classifyAttempt (env.rawResult k)
      = (none, some (.wrapped "circuit-breaker has worked" e)) := by
    unfold classifyAttempt
    rw [he]
    simp [hor]
  refine ⟨?_, ?_, ?_⟩
  · rw [hcls]
    simp only [isBreakerOpenErr, errorsIs]
    rcases hbr with h | h <;> simp [h]
  · intro code
    simp only [isBreakerOpenErr, errorsIs]
    exact rfl
  · intro hnm
    rw [performRequestLoop, hnm]
    simp

/-- Witness for C6: a bare `ErrOpenState` result with no configured
conditions is classified breaker-open, is distinguishable from a transport
error, and is returned after exactly one execution. -/
theorem C6_breaker_open_witness :
    isBreakerOpenErr (classifyAttempt
        (RetryEnv.rawResult
          { conds := [], rawResult := fun _ => (none, some .errOpenState) } 0)).2 = true ∧
    (∀ code : Nat, isBreakerOpenErr (some (.transport code)) = false) ∧
    (matchesCond ([] : List RetryCond)
        (classifyAttempt (none, some GoErr.errOpenState)) = false →
      performRequestLoop
          { conds := [], rawResult := fun _ => (none, some .errOpenState) }
          { minWaitTime := 0, maxWaitTime := 0, maxAttempts := 1,
            attempts := 0, f := fun _ _ _ => 0 } 0
        = (classifyAttempt (none, some GoErr.errOpenState), 0 + 1,
           { minWaitTime := 0, maxWaitTime := 0, maxAttempts := 1,
             attempts := 0, f := fun _ _ _ => 0 })) :=
  C6_breaker_open_classified
    { conds := [], rawResult := fun _ => (none, some .errOpenState) }
    { minWaitTime := 0, maxWaitTime := 0, maxAttempts := 1,
      attempts := 0, f := fun _ _ _ => 0 } 0 .errOpenState rfl
    (Or.inl rfl)

/-! ### Request building (`buildRequestURL`, `makeRequest`, request options) -/

/-- An `http.Header` / `url.Values`-style multimap. -/
abbrev Headers := List (String × List String)

/-- Lookup of a header key (first binding wins). -/
def headerLookup : Headers → String → Option (List String)
  | [], _ => none
  | (k, v) :: rest, key => if k = key then some v else headerLookup rest key

/-- A parsed `url.URL`, reduced to the components the pipeline touches.
`url.Parse` on the configured base address is modelled as the
already-parsed value. -/
structure ModelURL where
  scheme : String
  host : String
  path : String
  rawQuery : String
deriving DecidableEq

/-- Model of `client.buildRequestURL`: parse the base address and overwrite its
path with the descriptor's resource path (`u.Path = resource`). -/
def buildRequestURL (baseURL : ModelURL) (resource : String) : ModelURL :=
  { baseURL with path := resource }

/-- An `*http.Request`, reduced to the fields the pipeline touches. -/
structure HttpRequest where
  method : String
  url : ModelURL
  headers : Headers
  body : Option (List Nat)

/-- A `RequestOption`: mutates the request, may fail. -/
abbrev RequestOption := HttpRequest → Except GoErr HttpRequest

/-- Model of `WithRequestHeaders`: `req.Header = headers` (replaces the whole
header map). -/
def WithRequestHeaders (headers : Headers) : RequestOption :=
  fun req => .ok { req with headers := headers }

/-- Model of `WithRequestForm`: installs the url-encoded form bytes
(`form.Encode()`, taken as given) as the request body. -/
def WithRequestForm (formEncoded : List Nat) : RequestOption :=
  fun req => .ok { req with body := some formEncoded }

/-- The `for _, opt := range req.requestOptions` loop of `makeRequest`:
apply each option in declaration order, aborting on the first error. -/
def applyRequestOptions : List RequestOption → HttpRequest → Except GoErr HttpRequest
  | [], req => .ok req
  | opt :: opts, req =>
      match opt req with
      | .error e => .error e
      | .ok req' => applyRequestOptions opts req'

/-- The body-encoding step of `makeRequest`: when the method is not GET
and a payload plus codec are present (`encodePayload` is `none` in their
absence, otherwise the outcome of `encodeRequestPayload`), install the
encoded payload as the body, aborting on an encode error. -/
def encodeBodyStep (method : String)
    (encodePayload : Option (Except GoErr (List Nat)))
    (req0 : HttpRequest) : Except GoErr HttpRequest :=
  if method ≠ "GET" then
    match encodePayload with
    | some (Except.error e) => .error e
    | some (Except.ok bs) => .ok { req0 with body := some bs }
    | none => .ok req0
  else .ok req0

/-- Model of `client.makeRequest`: build the URL, create the request (empty
headers, nil body), run the body-encoding step, install the configured
default headers when non-empty (`httpReq.Header = c.api.options.Headers`),
then apply the request options in order. -/
def makeRequest (baseURL : ModelURL) (defaultHeaders : Headers)
    (method resourcePath : String)
    (encodePayload : Option (Except GoErr (List Nat)))
    (opts : List RequestOption) : Except GoErr HttpRequest :=
  match encodeBodyStep method encodePayload
      { method := method, url := buildRequestURL baseURL resourcePath,
        headers := [], body := none } with
  | .error e => .error e
  | .ok req1 =>
      let req2 :=
        if defaultHeaders.length ≠ 0 then { req1 with headers := defaultHeaders } else req1
      applyRequestOptions opts req2

/-- The body-encoding step never touches the request headers. -/
theorem encodeBodyStep_headers (method : String)
    (encodePayload : Option (Except GoErr (List Nat)))
    (req0 req1 : HttpRequest)
    (h : encodeBodyStep method encodePayload req0 = .ok req1) :
    req1.headers = req0.headers := by
  rw [encodeBodyStep.eq_def] at h
  by_cases hm : method ≠ "GET"
  · rw [if_pos hm] at h
    match henc : encodePayload with
    | none => cases h; rfl
    | some (Except.error e) => cases h
    | some (Except.ok bs) => cases h; rfl
  · rw [if_neg hm] at h
    cases h
    rfl

/-- Options that individually preserve a header key preserve it across the
whole option chain. -/
theorem applyRequestOptions_preserves (key : String) (opts : List RequestOption)
    (h : ∀ opt ∈ opts, ∀ r r', opt r = .ok r' →
      headerLookup r'.headers key = headerLookup r.headers key)
    (req req' : HttpRequest)
    (hap : applyRequestOptions opts req = .ok req') :
    headerLookup req'.headers key = headerLookup req.headers key := by
  induction opts generalizing req with
  | nil =>
      rw [applyRequestOptions] at hap
      cases hap
      rfl
  | cons opt opts ih =>
      rw [applyRequestOptions] at hap
      cases hopt : opt req with
      | error e => rw [hopt] at hap; cases hap
      | ok reqm =>
          rw [hopt] at hap
          have h1 := h opt (List.mem_cons_self opt opts) req reqm hopt
          have h2 := ih (fun o ho => h o (List.mem_cons_of_mem opt ho)) reqm hap
          rw [h2, h1]

/-- A successful `makeRequest` factors through a request whose headers
answer every lookup exactly as the configured default headers do. -/
theorem makeRequest_ok_factor (baseURL : ModelURL) (defaultHeaders : Headers)
    (method resourcePath : String) (encodePayload : Option (Except GoErr (List Nat)))
    (opts : List RequestOption) (key : String) (req : HttpRequest)
    (hmk : makeRequest baseURL defaultHeaders method resourcePath encodePayload opts
      = .ok req) :
    ∃ req2, applyRequestOptions opts req2 = .ok req ∧
      headerLookup req2.headers key = headerLookup defaultHeaders key := by
  have hdef : ∀ r1 : HttpRequest, r1.headers = [] →
      headerLookup
        (if defaultHeaders.length ≠ 0 then { r1 with headers := defaultHeaders }
         else r1).headers key
        = headerLookup defaultHeaders key := by
    intro r1 h1
    by_cases hd : defaultHeaders.length ≠ 0
    · rw [if_pos hd]
    · rw [if_neg hd]
      have : defaultHeaders = [] := List.length_eq_zero.mp (by omega)
      rw [h1, this]
  rw [makeRequest.eq_def] at hmk
  cases hstep : encodeBodyStep method encodePayload
      { method := method, url := buildRequestURL baseURL resourcePath,
        headers := [], body := none } with
  | error e => rw [hstep] at hmk; cases hmk
  | ok req1 =>
      rw [hstep] at hmk
      exact ⟨_, hmk, hdef req1 (encodeBodyStep_headers _ _ _ _ hstep)⟩

/-- C5: the configured default headers are installed on the outgoing
request before any per-call option runs, the options run afterwards in
declaration order, and every configured default header key survives onto
the request as sent whenever no per-call option changes that key. -/
theorem C5_default_headers (baseURL : ModelURL) (defaultHeaders : Headers)
    (method resourcePath : String) (encodePayload : Option (Except GoErr (List Nat)))
    (opts : List RequestOption) (key : String) (req : HttpRequest)
    (hopts : ∀ opt ∈ opts, ∀ r r', opt r = .ok r' →
      headerLookup r'.headers key = headerLookup r.headers key)
    (hmk : makeRequest baseURL defaultHeaders method resourcePath encodePayload opts
      = .ok req) :
    headerLookup req.headers key = headerLookup defaultHeaders key := by
  obtain ⟨req2, hap, hkey⟩ :=
    makeRequest_ok_factor baseURL defaultHeaders method resourcePath encodePayload
      opts key req hmk
  rw [applyRequestOptions_preserves key opts hopts req2 req hap, hkey]

/-- Witness for C5: one default header, a body-only option
(`WithRequestForm`), and a GET request: the default header is present on
the built request. -/
theorem C5_default_headers_witness :
    headerLookup
      (HttpRequest.headers
        ⟨"GET",
         buildRequestURL { scheme := "https", host := "h", path := "", rawQuery := "" } "/fact",
         [("X-Auth", ["tok"])], some [3]⟩)
      "X-Auth"
      = headerLookup [("X-Auth", ["tok"])] "X-Auth" :=
  C5_default_headers
    { scheme := "https", host := "h", path := "", rawQuery := "" }
    [("X-Auth", ["tok"])] "GET" "/fact" none [WithRequestForm [3]] "X-Auth"
    ⟨"GET",
     buildRequestURL { scheme := "https", host := "h", path := "", rawQuery := "" } "/fact",
     [("X-Auth", ["tok"])], some [3]⟩
    (by
      intro opt hopt r r' hr
      simp only [List.mem_singleton] at hopt
      rw [hopt] at hr
      simp only [WithRequestForm, Except.ok.injEq] at hr
      rw [← hr])
    rfl

/-- C10: the outgoing URL takes its path from the descriptor's resource
path alone; any path component of the configured base address is
discarded, while scheme and host are preserved. -/
theorem C10_base_path_discarded (baseURL : ModelURL) (resource p : String) :
    (buildRequestURL baseURL resource).path = resource ∧
    buildRequestURL { baseURL with path := p } resource = buildRequestURL baseURL resource ∧
    (buildRequestURL baseURL resource).scheme = baseURL.scheme ∧
    (buildRequestURL baseURL resource).host = baseURL.host :=
  ⟨rfl, rfl, rfl, rfl⟩

/-! ### Body buffering across retried attempts -/

/-- An `io.Reader` body: the bytes still unread. -/
structure BodyReader where
  contents : List Nat

/-- Model of `bytes.Buffer.ReadFrom`: read the source to exhaustion; the buffer
ends up holding the bytes and the source is drained. -/
def readAll (rd : BodyReader) : List Nat × BodyReader :=
  (rd.contents, { contents := [] })

/-- The `reuse` branch of `performRequest`'s `do` closure: buffer the
request's stored body (`b.ReadFrom(req.Body)`), keep the buffer installed
as the request's body (`req.Body = io.NopCloser(&b)`), and send a clone
whose body is a fresh reader over the buffered bytes
(`bytes.NewReader(b.Bytes())`). Returns the bytes the transport sees on
this attempt and the request's stored body afterwards. -/
def reuseBodyStep (stored : BodyReader) : List Nat × BodyReader :=
  let bs := (readAll stored).1
  (bs, { contents := bs })

/-- The request's stored body after `k` attempts of the retry loop. -/
def bodyAfter (first : BodyReader) : Nat → BodyReader
  | 0 => first
  | k + 1 => (reuseBodyStep (bodyAfter first k)).2

/-- The bytes the transport sees on the `k`-th attempt (0-based). -/
def sentBody (first : BodyReader) (k : Nat) : List Nat :=
  (reuseBodyStep (bodyAfter first k)).1

/-- The stored body still holds the original bytes after any number of
attempts. -/
theorem bodyAfter_contents (first : BodyReader) (k : Nat) :
    (bodyAfter first k).contents = first.contents := by
  induction k with
  | zero => rfl
  | succ k ih =>
      rw [bodyAfter, reuseBodyStep, readAll]
      exact ih

/-- C7: the body bytes sent on every retried attempt of one logical call
are identical to the bytes sent on the first attempt. -/
theorem C7_body_replay (first : BodyReader) (k : Nat) :
    sentBody first k = sentBody first 0 := by
  rw [sentBody, sentBody, reuseBodyStep, reuseBodyStep, readAll, readAll]
  simp [bodyAfter_contents]

/-! ### The `client.do` pipeline (admission before everything else) -/

/-- Observable stages of one logical call, in the order `client.do` runs
them: limiter admission granted, transport request built, `k`-th transport
attempt executed, response handled (read / error-sniffed / decoded /
post-hooks). -/
inductive CallEvent where
  | admission : CallEvent
  | buildRequest : CallEvent
  | transportAttempt : Nat → CallEvent
  | responseHandling : CallEvent
deriving DecidableEq

/-- The environment one `client.do` call runs in: the limiter `Wait`
outcome, the `makeRequest` outcome, whether a retry controller is
configured, and the transport behaviour for the attempt loop. -/
structure ClientDoEnv where
  limiterErr : Option GoErr
  makeRequestResult : Except GoErr HttpRequest
  retryConfigured : Bool
  retryEnv : RetryEnv

/-- Model of `client.do` as a trace semantics: wait on the limiter (returning its
error with nothing else happening on failure), build the request
(returning the build error on failure), run `performRequest` (the retry
loop when a controller is configured, a single execution otherwise), and
hand a successful pair to response handling. The trace records the stages
that occurred, in order. -/
def clientDo (env : ClientDoEnv) (b : backoff) :
    List CallEvent × (Option HttpResponse × Option GoErr) :=
  match env.limiterErr with
  | some e => ([], (none, some e))
  | none =>
      match env.makeRequestResult with
      | .error e => ([CallEvent.admission], (none, some e))
      | .ok _ =>
          let res :=
            if env.retryConfigured then
              performRequestLoop env.retryEnv b 0
            else
              (classifyAttempt (env.retryEnv.rawResult 0), 1, b)
          (CallEvent.admission :: CallEvent.buildRequest ::
             ((List.range res.2.1).map CallEvent.transportAttempt ++
              (match res.1.2 with
               | some _ => []
               | none => [CallEvent.responseHandling])),
           match res.1.2 with
           | some e => (none, some e)
           | none => res.1)

/-- C9: a limiter admission precedes every transport attempt, and a
limiter `Wait` error is returned as the call's error with no request
building, no transport attempt and no response handling having
occurred. -/
theorem C9_admission_precedes (env : ClientDoEnv) (b : backoff) :
    (∀ e, env.limiterErr = some e →
      clientDo env b = ([], (none, some e))) ∧
    (∀ i k, (clientDo env b).1.get? i = some (CallEvent.transportAttempt k) →
      ∃ j, j < i ∧ (clientDo env b).1.get? j = some CallEvent.admission) := by
  constructor
  · intro e he
    rw [clientDo.eq_def, he]
  · intro i k hik
    rw [clientDo.eq_def] at hik ⊢
    cases hl : env.limiterErr with
    | some e => rw [hl] at hik; simp at hik
    | none =>
        rw [hl] at hik
        cases hmk : env.makeRequestResult with
        | error e =>
            rw [hmk] at hik
            cases i with
            | zero => simp at hik
            | succ n => simp at hik
        | ok req =>
            rw [hmk] at hik
            cases i with
            | zero => simp at hik
            | succ n => exact ⟨0, Nat.succ_pos n, rfl⟩

/-- Witness for C9: a limiter failure returns exactly that error with an
empty trace, and in a successful single-attempt call the transport attempt
at trace index 2 is preceded by the admission at index 0. -/
theorem C9_admission_precedes_witness :
    (clientDo
        { limiterErr := some (GoErr.transport 7),
          makeRequestResult := .error (GoErr.transport 8),
          retryConfigured := false,
          retryEnv := { conds := [], rawResult := fun _ => (none, none) } }
        { minWaitTime := 0, maxWaitTime := 0, maxAttempts := 1,
          attempts := 0, f := fun _ _ _ => 0 }
      = ([], (none, some (GoErr.transport 7)))) ∧
    (∃ j, j < 2 ∧
      (clientDo
          { limiterErr := none,
            makeRequestResult := .ok
              ⟨"GET", { scheme := "https", host := "h", path := "/fact", rawQuery := "" },
               [], none⟩,
            retryConfigured := false,
            retryEnv :=
              { conds := [], rawResult := fun _ => (some { statusCode := 200 }, none) } }
          { minWaitTime := 0, maxWaitTime := 0, maxAttempts := 1,
            attempts := 0, f := fun _ _ _ => 0 }).1.get? j
        = some CallEvent.admission) :=
  ⟨(C9_admission_precedes
      { limiterErr := some (GoErr.transport 7),
        makeRequestResult := .error (GoErr.transport 8),
        retryConfigured := false,
        retryEnv := { conds := [], rawResult := fun _ => (none, none) } }
      { minWaitTime := 0, maxWaitTime := 0, maxAttempts := 1,
        attempts := 0, f := fun _ _ _ => 0 }).1 (GoErr.transport 7) rfl,
   (C9_admission_precedes
      { limiterErr := none,
        makeRequestResult := .ok
          ⟨"GET", { scheme := "https", host := "h", path := "/fact", rawQuery := "" },
           [], none⟩,
        retryConfigured := false,
        retryEnv :=
          { conds := [], rawResult := fun _ => (some { statusCode := 200 }, none) } }
      { minWaitTime := 0, maxWaitTime := 0, maxAttempts := 1,
        attempts := 0, f := fun _ _ _ => 0 }).2 2 0 rfl⟩

end Clientx
